import Mathlib

/-!
Verification of the resilient HTTP transfer engine of the repository
(`sdk/storage/src/shares/share_file_client.cpp` and its collaborators).

Machine integers (`int64_t`, `std::size_t`) are modelled as `Int` or `Nat`;
all byte offsets, lengths and sizes handled by these operations are
nonnegative and far below 2^63, so overflow is immaterial. C++ exceptions
are modelled as `Except`-style error results drawn from the fault taxonomy.
`Azure::Core::Nullable<T>` is modelled as `Option T`; `std::to_string` of an
`int64_t` is modelled as `toString` of an `Int`.
-/

/-- The fault taxonomy. The C++ code signals these as exceptions:
`std::invalid_argument` on empty pipeline construction and the
"buffer is not big enough" `std::runtime_error` map to `ConfigFault`,
the "File was changed during the download process." `std::runtime_error`
maps to `ConsistencyFault`, the "error when reading body stream"
`std::runtime_error` maps to `TransportFault`. -/
inductive Fault where
  | TransportFault
  | ServiceFault
  | ConsistencyFault
  | ConfigFault
  | CancelledFault
deriving DecidableEq, Repr

/-- `DownloadFileOptions` of the file client: the `Offset`/`Length`
nullable fields that drive range construction (`share_file_client.cpp`
lines 210-229). The `Context`, MD5 and lease fields play no role in the
properties verified here and are omitted. -/
structure DownloadFileOptions where
  Offset : Option Int := none
  Length : Option Int := none
deriving DecidableEq, Repr

/-- The `Range` header produced by `FileClient::Download`
(`share_file_client.cpp` lines 214-227): set only when `Offset` has a
value; closed form `bytes=o-(o+l-1)` when `Length` also has a value,
open form `bytes=o-` otherwise. -/
def downloadRangeHeader (options : DownloadFileOptions) : Option String :=
  match options.Offset with
  | none => none
  | some o =>
    match options.Length with
    | some l =>
        some ("bytes=" ++ toString o ++ "-" ++ toString (o + l - 1))
    | none => some ("bytes=" ++ toString o ++ "-")

/-- The `x-ms-range` header produced by `FileClient::UploadRange`
(`share_file_client.cpp` lines 402-403), where `contentLength` is
`content->Length()` of the request body. -/
def uploadRangeHeader (offset contentLength : Int) : String :=
  "bytes=" ++ toString offset ++ "-" ++ toString (offset + contentLength - 1)

/-- The `TargetRange` header produced by `FileClient::UploadRangeFromUrl`
(`share_file_client.cpp` lines 420-435): first set from `offset`/`length`,
then overwritten from `SourceOffset`/`SourceLength` when `SourceOffset`
has a value. -/
def uploadRangeFromUrlTargetRange (offset length : Int)
    (sourceOffset sourceLength : Option Int) : String :=
  let initial := "bytes=" ++ toString offset ++ "-" ++ toString (offset + length - 1)
  match sourceOffset with
  | none => initial
  | some so =>
    match sourceLength with
    | some sl => "bytes=" ++ toString so ++ "-" ++ toString (so + sl - 1)
    | none => "bytes=" ++ toString so ++ "-"

/-- The `x-ms-range` header produced by `FileClient::ClearRange`
(`share_file_client.cpp` lines 451-460). -/
def clearRangeHeader (offset : Int) (length : Option Int) : String :=
  match length with
  | some l => "bytes=" ++ toString offset ++ "-" ++ toString (offset + l - 1)
  | none => "bytes=" ++ toString offset ++ "-"

/-- The `x-ms-range` header produced by `FileClient::GetRangeList`
(`share_file_client.cpp` lines 475-488). -/
def getRangeListHeader (offset : Option Int) (length : Option Int) : Option String :=
  match offset with
  | none => none
  | some o =>
    match length with
    | some l => some ("bytes=" ++ toString o ++ "-" ++ toString (o + l - 1))
    | none => some ("bytes=" ++ toString o ++ "-")

/-- The range header form as the spec words it (§6): `bytes=<start>-<end>`
with inclusive end `start + length - 1` when a length is known, and
`bytes=<start>-` for "to end". Stated from the spec, for comparison with
the source-derived header constructors. -/
def rangeHeaderSpec (start : Int) (length : Option Int) : String :=
  match length with
  | some l => "bytes=" ++ toString start ++ "-" ++ toString (start + l - 1)
  | none => "bytes=" ++ toString start ++ "-"

/-- The options of the resumed `Download` request built by the retry
function that `FileClient::Download` installs in its `ReliableStream`
(`share_file_client.cpp` lines 244-251). `retryOffset` is
`retryInfo.Offset`, the count of bytes already delivered to the caller. -/
def retryFunctionNewOptions (options : DownloadFileOptions) (retryOffset : Int) :
    DownloadFileOptions :=
  { Offset := some ((match options.Offset with | some o => o | none => 0) + retryOffset)
    Length := match options.Length with
              | some l => some (l - retryOffset)
              | none => none }

/-- The fields of a `DownloadFileResult` used by the transfer engine:
the entity tag, the whole-transfer metadata moved by `returnTypeConverter`,
the `Content-Range` response header, and the body stream (represented by
its length; no verified property depends on the byte values). -/
structure DownloadFileResult where
  ETag : String := ""
  LastModified : String := ""
  HttpHeaders : List (String × String) := []
  Metadata : List (String × String) := []
  IsServerEncrypted : Bool := false
  ContentRange : Option String := none
  bodyLength : Nat := 0
deriving DecidableEq, Repr

/-- The whole-transfer result of `FileClient::DownloadTo`
(`DownloadFileToResult`), restricted to the fields the engine writes. -/
structure DownloadFileToResult where
  ETag : String := ""
  LastModified : String := ""
  HttpHeaders : List (String × String) := []
  Metadata : List (String × String) := []
  IsServerEncrypted : Bool := false
  ContentLength : Int := 0
deriving DecidableEq, Repr

/-- `returnTypeConverter` of `FileClient::DownloadTo`
(`share_file_client.cpp` lines 625-635 and 758-768): copies `ETag`,
`LastModified`, `HttpHeaders`, `Metadata` and `IsServerEncrypted` from a
chunk response into the whole-transfer result. -/
def returnTypeConverter (r : DownloadFileResult) : DownloadFileToResult :=
  { ETag := r.ETag
    LastModified := r.LastModified
    HttpHeaders := r.HttpHeaders
    Metadata := r.Metadata
    IsServerEncrypted := r.IsServerEncrypted
    ContentLength := 0 }

/-!
## The retry function installed by `FileClient::Download`

`FileClient::Download` is a network operation; its responses are modelled
by an oracle `Nat → DownloadFileOptions → DownloadFileResult` giving the
response of the i-th `Download` call issued by the retry function (the
remote resource may change between calls, so distinct calls may see
distinct responses). A call log threads through `StateM` so that the
number and arguments of the issued calls are part of the semantics.
-/

/-- One `Download(...)` call: appends the request options to the call log
and returns the oracle's response for the current call index. -/
def doDownload (oracle : Nat → DownloadFileOptions → DownloadFileResult)
    (opts : DownloadFileOptions) :
    StateM (List DownloadFileOptions) DownloadFileResult := do
  let log ← get
  set (log ++ [opts])
  pure (oracle log.length opts)

/-- The retry function (the lambda at `share_file_client.cpp` lines
238-259) that `FileClient::Download` hands to its `ReliableStream`:
rebuild the download options shifted by the bytes already delivered,
issue `Download(newOptions)`, compare the captured entity tag `origETag`
with the new response's; on mismatch throw (the
"File was changed during the download process." error, a
`ConsistencyFault`); on match issue `Download(newOptions)` a second time
and hand back that second response's body stream. -/
def retryFunction (oracle : Nat → DownloadFileOptions → DownloadFileResult)
    (origETag : String) (options : DownloadFileOptions) (retryOffset : Int) :
    ExceptT Fault (StateM (List DownloadFileOptions)) DownloadFileResult := do
  let newOptions := retryFunctionNewOptions options retryOffset
  let newResponse ← doDownload oracle newOptions
  if origETag ≠ newResponse.ETag then
    throw Fault.ConsistencyFault
  else
    let secondResponse ← doDownload oracle newOptions
    pure secondResponse

/-- Run the retry function from an empty call log: result and the list of
`Download` calls it issued. -/
def runRetryFunction (oracle : Nat → DownloadFileOptions → DownloadFileResult)
    (origETag : String) (options : DownloadFileOptions) (retryOffset : Int) :
    Except Fault DownloadFileResult × List DownloadFileOptions :=
  ((retryFunction oracle origETag options retryOffset).run).run []

/-!
## Reliable Stream state machine

Modelled from the spec: the implementation of `ReliableStream`
(`common/reliable_stream.hpp`) is not under `src/`; its behaviour is
taken from spec §4.3: states `Streaming → (fault) → Resuming → Streaming`,
terminal `Exhausted` when the resume-attempt budget is spent before the
negotiated length is reached, terminal `Inconsistent` when a resumed
response's identity tag differs from the one captured at stream start
(fails immediately, not retried). The getter invoked on resume is the
file client's retry function above.
-/

/-- Reliable Stream states (spec §4.3). `Streaming` carries the
cumulative byte offset delivered and the count of resume attempts used;
`Inconsistent`, `Exhausted` and `Failed` are terminal. -/
inductive RSState where
  | Streaming (offsetDelivered : Int) (attemptsUsed : Nat)
  | Inconsistent
  | Exhausted
  | Failed (f : Fault)
deriving DecidableEq, Repr

/-- Events observed by a Reliable Stream while reading: some bytes are
delivered from the current body, or a read fault occurs. -/
inductive RSEvent where
  | deliver (count : Nat)
  | fault
deriving DecidableEq, Repr

/-- Modelled from the spec (§4.3): one Reliable Stream transition.
Delivered bytes advance the cumulative offset. On a read fault with
attempts remaining the getter is invoked once at the offset already
delivered: a `ConsistencyFault` from the getter (identity mismatch) moves
to the terminal `Inconsistent` state, any other getter fault is terminal
`Failed`, and a successful resume returns to `Streaming` with one more
attempt used. With the budget spent the stream is `Exhausted`. Terminal
states absorb every event and never invoke the getter. The second
component counts getter invocations performed by the step. -/
def rsStep (maxRetry : Nat) (getter : Int → Except Fault DownloadFileResult) :
    RSState → RSEvent → RSState × Nat
  | .Streaming off a, .deliver n => (.Streaming (off + n) a, 0)
  | .Streaming off a, .fault =>
      if a < maxRetry then
        match getter off with
        | .ok _ => (.Streaming off (a + 1), 1)
        | .error Fault.ConsistencyFault => (.Inconsistent, 1)
        | .error f => (.Failed f, 1)
      else (.Exhausted, 0)
  | .Inconsistent, _ => (.Inconsistent, 0)
  | .Exhausted, _ => (.Exhausted, 0)
  | .Failed f, _ => (.Failed f, 0)

/-- Run a Reliable Stream over a sequence of read events, accumulating
the total number of getter (resume) invocations. -/
def rsRun (maxRetry : Nat) (getter : Int → Except Fault DownloadFileResult) :
    RSState → List RSEvent → RSState × Nat
  | s, [] => (s, 0)
  | s, e :: rest =>
      let r := rsStep maxRetry getter s e
      let next := rsRun maxRetry getter r.1 rest
      (next.1, r.2 + next.2)

/-- The resume getter of a stream opened by `FileClient::Download`: the
retry function, discarding the call log, at the delivered offset. -/
def fileClientGetter (oracle : Nat → DownloadFileOptions → DownloadFileResult)
    (origETag : String) (options : DownloadFileOptions)
    (offsetDelivered : Int) : Except Fault DownloadFileResult :=
  (runRetryFunction oracle origETag options offsetDelivered).1

/-!
## Concurrent Transfer Scheduler: the Chunk Plan

Modelled from the spec: `Storage::Details::ConcurrentTransfer`
(`common/concurrent_transfer.hpp`) is not under `src/`; the Chunk Plan it
builds is taken from spec §3/§4.4: an ordered, non-overlapping, gap-free
list of `(offset, length)` ranges covering exactly the requested byte
range, every chunk of the nominal `chunkSize` except a possibly shorter
final chunk. Byte offsets and lengths are nonnegative and modelled as
`Nat`.
-/

/-- Fuel-bounded worker for `chunkPlan` (structural recursion; the fuel
is immaterial as long as it is at least `rangeLength`, see
`chunkPlanAux_congr`). -/
def chunkPlanAux (fuel rangeStart rangeLength chunkSize : Nat) : List (Nat × Nat) :=
  match fuel with
  | 0 => []
  | fuel + 1 =>
    if chunkSize = 0 ∨ rangeLength = 0 then []
    else if rangeLength ≤ chunkSize then [(rangeStart, rangeLength)]
    else (rangeStart, chunkSize) ::
      chunkPlanAux fuel (rangeStart + chunkSize) (rangeLength - chunkSize) chunkSize

/-- Modelled from the spec (§4.4): the Chunk Plan for
`(rangeStart, rangeLength, chunkSize)` — contiguous chunks of
`chunkSize` bytes, the last chunk truncated to the remaining length.
Chunk indices are list positions. -/
def chunkPlan (rangeStart rangeLength chunkSize : Nat) : List (Nat × Nat) :=
  chunkPlanAux rangeLength rangeStart rangeLength chunkSize

/-!
## Concurrent Transfer Scheduler: dispatch and error policy

Modelled from the spec: the scheduler's run loop
(`common/concurrent_transfer.hpp`) is not under `src/`; its dispatch and
error policy is taken from spec §4.4/§7: chunks are dispatched in plan
order to at most `concurrency` simultaneously active workers; on the
first fatal fault from any worker no new chunk is dispatched,
already-in-flight chunks are allowed to finish, and once nothing is in
flight the first fatal fault encountered is surfaced, regardless of later
successes. A run is a sequence of dispatch / completion events.
-/

/-- Scheduler state: the next undispatched chunk index (chunks are
dispatched in plan order), the indices currently in flight, and the first
fatal fault observed, if any. -/
structure SchedState where
  nextChunk : Nat
  inFlight : List Nat
  firstFault : Option Fault
deriving DecidableEq, Repr

/-- Initial scheduler state. -/
def schedInit : SchedState := ⟨0, [], none⟩

/-- Events of a scheduler run: a dispatch opportunity, or an in-flight
chunk completing with success (`none`) or a fatal fault (`some f`). -/
inductive SchedEvent where
  | dispatch
  | complete (chunk : Nat) (outcome : Option Fault)
deriving DecidableEq, Repr

/-- Modelled from the spec (§4.4): one scheduler transition. A dispatch
starts the next unstarted chunk only while no fatal fault has been
observed, chunks remain, and fewer than `concurrency` workers are active.
A completion of an in-flight chunk removes it from flight and records its
fault if it is the first. -/
def schedStep (total concurrency : Nat) (s : SchedState) (e : SchedEvent) :
    SchedState :=
  match e with
  | .dispatch =>
      if s.firstFault = none ∧ s.nextChunk < total ∧ s.inFlight.length < concurrency
      then { s with nextChunk := s.nextChunk + 1, inFlight := s.inFlight ++ [s.nextChunk] }
      else s
  | .complete i outcome =>
      if i ∈ s.inFlight then
        { s with
          inFlight := s.inFlight.erase i
          firstFault := match s.firstFault with
                        | some f => some f
                        | none => outcome }
      else s

/-- A scheduler run: fold the step over an event sequence. -/
def schedRun (total concurrency : Nat) (s : SchedState)
    (events : List SchedEvent) : SchedState :=
  events.foldl (schedStep total concurrency) s

/-- The result the scheduler surfaces to the caller once no chunks remain
in flight: the first fatal fault if one was observed, success otherwise. -/
def schedResult (s : SchedState) : Except Fault Unit :=
  match s.firstFault with
  | some f => .error f
  | none => .ok ()

/-!
## Finalizing whole-transfer metadata by chunk index

`downloadChunkFunc` of `FileClient::DownloadTo` overwrites the
whole-transfer result from its chunk's response exactly when
`chunkId == numChunks - 1` (`share_file_client.cpp` lines 656-659 and
786-789). Chunk workers complete in a non-deterministic order, modelled
as an arbitrary list of completing chunk indices.
-/

/-- The result update performed by one chunk completion
(`share_file_client.cpp` lines 656-659): overwrite the whole-transfer
result from this chunk's response when its index is `numChunks - 1`,
leave it unchanged otherwise. Indices are `int64_t`, modelled as `Int`. -/
def downloadChunkFinalize (chunkResp : DownloadFileResult)
    (chunkId numChunks : Int) (ret : DownloadFileToResult) :
    DownloadFileToResult :=
  if chunkId = numChunks - 1 then returnTypeConverter chunkResp else ret

/-- Chunk completions applied in an arbitrary completion order:
`resp i` is the response of chunk `i`, and `order` lists the chunk
indices in completion order. -/
def runChunkCompletions (numChunks : Int) (resp : Int → DownloadFileResult)
    (order : List Int) (ret : DownloadFileToResult) : DownloadFileToResult :=
  order.foldl (fun r i => downloadChunkFinalize (resp i) i numChunks r) ret

/-!
## Pipeline construction

Modelled from the spec: `HttpPipeline`'s implementation
(`azure/core/internal/http/pipeline.hpp`) is not under `src/`; its
construction contract is taken from spec §4.1 ("Construction fails with a
ConfigError if given zero Policies") and the unit tests
(`sdk/core/azure-core/test/ut/pipeline.cpp`), which expect
`std::invalid_argument` — a `ConfigFault` — from both the copy-from-vector
constructor and the move constructor on an empty policy vector, and
successful construction from one policy.
-/

/-- The policy kinds assembled by the `FileClient` constructors
(`share_file_client.cpp` lines 49-67) and the pipeline unit tests. -/
inductive HttpPolicy where
  | TelemetryPolicy (componentName componentVersion : String)
  | RequestIdPolicy
  | RetryPolicy
  | StoragePerRetryPolicy
  | SharedKeyPolicy
  | BearerTokenAuthenticationPolicy
  | TransportPolicy
deriving DecidableEq, Repr

/-- An HTTP pipeline: the ordered policy list it was constructed from. -/
structure HttpPipeline where
  policies : List HttpPolicy
deriving DecidableEq, Repr

/-- Modelled from the spec (§4.1): the `HttpPipeline` constructor taking
a vector of policies by const reference (clones each policy into the
pipeline). Zero policies fail construction with a `ConfigFault`
(`std::invalid_argument` in the tests). -/
def mkHttpPipeline (policies : List HttpPolicy) : Except Fault HttpPipeline :=
  if policies = [] then .error Fault.ConfigFault
  else .ok { policies := policies }

/-- Modelled from the spec (§4.1): the `HttpPipeline` move constructor
taking the policy vector by rvalue reference. Same construction contract
as the copying constructor. -/
def mkHttpPipelineMove (policies : List HttpPolicy) : Except Fault HttpPipeline :=
  if policies = [] then .error Fault.ConfigFault
  else .ok { policies := policies }

/-!
## `FileClient::DownloadTo` (buffer overload)

The chunked download driver (`share_file_client.cpp` lines 563-681),
executed against a model of the remote file. The service itself is an
external collaborator; its responses follow spec §6 (range honoured,
`Content-Range: bytes <start>-<end>/<total>`). The concurrent chunk loop
is rendered as a sequential fold over the Chunk Plan in plan order; a
worker exception aborts the remaining chunks (modelled by the fold
propagating the error past the remaining chunks without effects). The run
records the `Range` header of every request issued and every write to the
output buffer (position, byte count), in program order.
-/

/-- The remote file as the service sees it. Body bytes are represented
only by counts; no verified property depends on byte values. -/
structure FileModel where
  size : Nat
  eTag : String := ""
  lastModified : String := ""
  httpHeaders : List (String × String) := []
  metadata : List (String × String) := []
  isServerEncrypted : Bool := false
deriving DecidableEq, Repr

/-- Modelled from the spec: `Details::c_FileDownloadDefaultChunkSize`
lives in `common/constants.hpp`, which is not under `src/`; the spec
calls the default chunk size implementation-defined (§6). No verified
property depends on this value. -/
def c_FileDownloadDefaultChunkSize : Int := 8 * 1024 * 1024

/-- Modelled from the spec (§6): the response of a well-behaved service
to one `Download` request. Without an `Offset` the whole file is returned
and no `Content-Range` header is present; with an `Offset` the body is
the requested range clamped to the file size, and `Content-Range` is
`bytes <start>-<end>/<total>` with `<total>` the full file size. -/
def serverDownload (f : FileModel) (opts : DownloadFileOptions) :
    DownloadFileResult :=
  match opts.Offset with
  | none =>
      { ETag := f.eTag
        LastModified := f.lastModified
        HttpHeaders := f.httpHeaders
        Metadata := f.metadata
        IsServerEncrypted := f.isServerEncrypted
        ContentRange := none
        bodyLength := f.size }
  | some o =>
      let start := o.toNat
      let stop := match opts.Length with
                  | some l => min f.size (start + l.toNat)
                  | none => f.size
      { ETag := f.eTag
        LastModified := f.lastModified
        HttpHeaders := f.httpHeaders
        Metadata := f.metadata
        IsServerEncrypted := f.isServerEncrypted
        ContentRange := some ("bytes " ++ toString start ++ "-"
          ++ toString (stop - 1) ++ "/" ++ toString f.size)
        bodyLength := stop - start }

/-- The characters after the first `/` of a character list
(`contentRange.substr(contentRange.find('/') + 1)`); empty when no `/`
occurs (where the C++ `substr` would fail). -/
def charsAfterSlash : List Char → List Char
  | [] => []
  | c :: rest => if c = '/' then rest else charsAfterSlash rest

/-- Leading decimal digits of a character list, accumulated onto `acc`;
parsing stops at the first non-digit, as `std::stoll` does. -/
def parseDigitsAux (acc : Nat) : List Char → Nat
  | [] => acc
  | c :: rest =>
      if c.isDigit then parseDigitsAux (acc * 10 + (c.toNat - 48)) rest else acc

/-- `std::stoll` on a nonnegative value: `none` (the C++ call throws)
unless the text starts with a digit, else the value of the leading
digits. -/
def parseInt64 (l : List Char) : Option Nat :=
  match l with
  | [] => none
  | c :: _ => if c.isDigit then some (parseDigitsAux 0 l) else none

/-- `std::stoll(contentRange.substr(contentRange.find('/') + 1))` of
`share_file_client.cpp` lines 596-597: the `<total>` after the first `/`
of a `Content-Range` value. -/
def parseContentRangeTotal (s : String) : Option Nat :=
  parseInt64 (charsAfterSlash s.data)

/-- `DownloadFileToOptions`: the transfer configuration options of
`DownloadTo` (spec §6). `Concurrency` is a plain (non-nullable) field. -/
structure DownloadFileToOptions where
  Offset : Option Int := none
  Length : Option Int := none
  InitialChunkSize : Option Int := none
  ChunkSize : Option Int := none
  Concurrency : Int
deriving DecidableEq, Repr

/-- The initial-chunk length before clamping by the resolved range size
(`share_file_client.cpp` lines 571-580): the implementation-defined
default, overridden by `InitialChunkSize`, clamped by `Length`. -/
def firstChunkLengthInit (options : DownloadFileToOptions) : Int :=
  let a := match options.InitialChunkSize with
           | some s => s
           | none => c_FileDownloadDefaultChunkSize
  match options.Length with
  | some l => min a l
  | none => a

/-- The options of the initial `Download` request issued by `DownloadTo`
(`share_file_client.cpp` lines 582-588): the caller's `Offset`, and a
`Length` only when an `Offset` was given. -/
def firstChunkOptionsOf (options : DownloadFileToOptions) : DownloadFileOptions :=
  { Offset := options.Offset
    Length := if options.Offset.isSome then some (firstChunkLengthInit options)
              else none }

/-- The file range size `DownloadTo` resolves from the initial response
(`share_file_client.cpp` lines 592-608): with an `Offset`, the total
after the `/` of `Content-Range` minus the first chunk offset, clamped by
`Length` (`none` when the `Content-Range` value does not parse); without
an `Offset`, the initial body's length. -/
def resolvedFileRangeSize (f : FileModel) (options : DownloadFileToOptions) :
    Option Int :=
  let firstChunkOffset : Int := match options.Offset with | some o => o | none => 0
  let firstChunk := serverDownload f (firstChunkOptionsOf options)
  if options.Offset.isSome then
    match firstChunk.ContentRange with
    | some s =>
      match parseContentRangeTotal s with
      | some total =>
          let frs := (total : Int) - firstChunkOffset
          some (match options.Length with | some l => min frs l | none => frs)
      | none => none
    | none => none
  else
    some (firstChunk.bodyLength : Int)

/-- The observable events of one `DownloadTo` run: the `Range` header of
every request issued (in order; `none` = no range header) and every write
into the output buffer as (buffer position, byte count), in order. -/
structure DlTrace where
  requests : List (Option String) := []
  writes : List (Nat × Nat) := []
deriving DecidableEq, Repr

/-- One iteration of `downloadChunkFunc` (`share_file_client.cpp` lines
639-660) over an indexed chunk `(chunkId, (offset, length))`: download
the chunk range, write the body at `offset - firstChunkOffset`, fail on a
short read, and finalize the whole-transfer result when the chunk index
is the last. An already-failed accumulator skips the chunk (the C++
exception aborts the remaining chunks). -/
def downloadChunkStep (f : FileModel) (firstChunkOffset : Int) (numChunks : Int)
    (acc : Except Fault DownloadFileToResult × DlTrace)
    (ic : Nat × (Nat × Nat)) : Except Fault DownloadFileToResult × DlTrace :=
  match acc.1 with
  | .error e => (.error e, acc.2)
  | .ok ret =>
    let chunkOptions : DownloadFileOptions :=
      { Offset := some (ic.2.1 : Int), Length := some (ic.2.2 : Int) }
    let chunk := serverDownload f chunkOptions
    let t1 := { acc.2 with
                requests := acc.2.requests ++ [downloadRangeHeader chunkOptions] }
    let bytesRead := min chunk.bodyLength ic.2.2
    let t2 := { t1 with
                writes := t1.writes
                  ++ [(((ic.2.1 : Int) - firstChunkOffset).toNat, bytesRead)] }
    if bytesRead ≠ ic.2.2 then (.error Fault.TransportFault, t2)
    else (.ok (downloadChunkFinalize chunk (ic.1 : Int) numChunks ret), t2)

/-- `FileClient::DownloadTo(buffer, bufferSize, options)`
(`share_file_client.cpp` lines 563-681): issue the initial request,
resolve the file range size, fail with a `ConfigFault` when the resolved
range exceeds `bufferSize` (the "buffer is not big enough" error), read
the first chunk into the buffer, then drive the remaining range through
the Concurrent Transfer Scheduler's Chunk Plan and finally set the
result's `ContentLength` to the resolved range size. -/
def downloadToBuffer (f : FileModel) (bufferSize : Nat)
    (options : DownloadFileToOptions) :
    Except Fault DownloadFileToResult × DlTrace :=
  let firstChunkOffset : Int := match options.Offset with | some o => o | none => 0
  let firstChunkOptions := firstChunkOptionsOf options
  let firstChunk := serverDownload f firstChunkOptions
  let t0 : DlTrace := { requests := [downloadRangeHeader firstChunkOptions]
                        writes := [] }
  match resolvedFileRangeSize f options with
  | none => (.error Fault.ServiceFault, t0)
  | some fileRangeSize =>
    let firstChunkLength := min (firstChunkLengthInit options) fileRangeSize
    if (bufferSize : Int) < fileRangeSize then
      (.error Fault.ConfigFault, t0)
    else
      let bytesRead : Int := min (firstChunk.bodyLength : Int) firstChunkLength
      let t1 := { t0 with writes := t0.writes ++ [(0, bytesRead.toNat)] }
      if bytesRead ≠ firstChunkLength then (.error Fault.TransportFault, t1)
      else
        let ret0 := returnTypeConverter firstChunk
        let remainingOffset := firstChunkOffset + firstChunkLength
        let remainingSize := fileRangeSize - firstChunkLength
        let chunkSize : Int :=
          match options.ChunkSize with
          | some cs => cs
          | none =>
            let grain : Int := 4 * 1024
            let cs0 := remainingSize / options.Concurrency
            let cs1 := (max cs0 1 + grain - 1) / grain * grain
            min cs1 c_FileDownloadDefaultChunkSize
        let plan := chunkPlan remainingOffset.toNat remainingSize.toNat
          chunkSize.toNat
        let final := plan.enum.foldl
          (downloadChunkStep f firstChunkOffset (plan.length : Int)) (.ok ret0, t1)
        match final with
        | (.ok ret, t) => (.ok { ret with ContentLength := fileRangeSize }, t)
        | (.error e, t) => (.error e, t)

/-- A 10,485,760-byte remote file with entity tag "etag": the resource of
the end-to-end download scenario. -/
def c7File : FileModel := { size := 10485760, eTag := "etag" }

/-- The end-to-end download scenario's options: `ChunkSize` 4,194,304,
`Concurrency` 3, `InitialChunkSize` 1,048,576, and no explicit `Offset`
or `Length` (the scenario names no sub-range). -/
def c7Options : DownloadFileToOptions :=
  { Offset := none
    Length := none
    InitialChunkSize := some 1048576
    ChunkSize := some 4194304
    Concurrency := 3 }

/-- A download oracle for a resource that was modified mid-read: every
response carries the entity tag "changed". -/
def changedOracle : Nat → DownloadFileOptions → DownloadFileResult :=
  fun _ _ => { ETag := "changed" }

/-- A download oracle whose first response carries entity tag "v1" and
whose later responses carry entity tag "v2" (the resource changes right
after the first resume call). -/
def shiftingOracle : Nat → DownloadFileOptions → DownloadFileResult :=
  fun i _ => if i = 0 then { ETag := "v1" } else { ETag := "v2", bodyLength := 42 }

/-!
## Helper lemmas
-/

/-- The fuel of `chunkPlanAux` does not matter once it reaches
`rangeLength`. -/
theorem chunkPlanAux_congr (f1 : Nat) :
    ∀ (f2 rangeStart rangeLength chunkSize : Nat),
      rangeLength ≤ f1 → rangeLength ≤ f2 →
      chunkPlanAux f1 rangeStart rangeLength chunkSize
        = chunkPlanAux f2 rangeStart rangeLength chunkSize := by
  induction f1 with
  | zero =>
    intro f2 s n c h1 h2
    have hn : n = 0 := Nat.le_zero.mp h1
    subst hn
    cases f2 <;> simp [chunkPlanAux]
  | succ f ih =>
    intro f2 s n c h1 h2
    cases f2 with
    | zero =>
      have hn : n = 0 := Nat.le_zero.mp h2
      subst hn
      simp [chunkPlanAux]
    | succ g =>
      simp only [chunkPlanAux]
      split
      · rfl
      · next h =>
        split
        · rfl
        · next h2' =>
          have := ih g (s + c) (n - c) c (by omega) (by omega)
          rw [this]

/-- The recursion equation of `chunkPlan`. -/
theorem chunkPlan_eq (rangeStart rangeLength chunkSize : Nat) :
    chunkPlan rangeStart rangeLength chunkSize =
      if chunkSize = 0 ∨ rangeLength = 0 then []
      else if rangeLength ≤ chunkSize then [(rangeStart, rangeLength)]
      else (rangeStart, chunkSize) ::
        chunkPlan (rangeStart + chunkSize) (rangeLength - chunkSize) chunkSize := by
  unfold chunkPlan
  cases rangeLength with
  | zero => simp [chunkPlanAux]
  | succ m =>
    simp only [chunkPlanAux]
    split
    · rfl
    · next h =>
      split
      · rfl
      · next h2 =>
        rw [chunkPlanAux_congr m (m + 1 - chunkSize) (rangeStart + chunkSize)
          (m + 1 - chunkSize) chunkSize (by omega) (by omega)]

/-- Every chunk of the plan has positive length bounded by `chunkSize`. -/
theorem chunkPlan_len_bounds (rangeStart rangeLength chunkSize : Nat) :
    ∀ p ∈ chunkPlan rangeStart rangeLength chunkSize, 0 < p.2 ∧ p.2 ≤ chunkSize := by
  induction rangeLength using Nat.strong_induction_on generalizing rangeStart with
  | _ n ih =>
    rw [chunkPlan_eq]
    split
    · intro p hp; simp at hp
    · next h =>
      split
      · next h2 =>
        intro p hp
        simp at hp
        subst hp
        omega
      · next h2 =>
        intro p hp
        simp at hp
        rcases hp with hp | hp
        · subst hp; omega
        · exact ih (n - chunkSize) (by omega) (rangeStart + chunkSize) p hp

/-- Adjacent chunks of the plan are contiguous: each chunk ends exactly
where the next begins (gap-free, ordered). -/
theorem chunkPlan_chain (rangeStart rangeLength chunkSize : Nat) :
    List.Chain' (fun p q => p.1 + p.2 = q.1)
      (chunkPlan rangeStart rangeLength chunkSize) := by
  induction rangeLength using Nat.strong_induction_on generalizing rangeStart with
  | _ n ih =>
    rw [chunkPlan_eq]
    split
    · exact List.chain'_nil
    · next h =>
      split
      · exact List.chain'_singleton _
      · next h2 =>
        have hrec := ih (n - chunkSize) (by omega) (rangeStart + chunkSize)
        refine List.chain'_cons'.mpr ⟨?_, hrec⟩
        intro q hq
        rw [chunkPlan_eq] at hq
        split at hq
        · simp at hq
        · split at hq
          · simp at hq
            subst hq
            rfl
          · simp at hq
            subst hq
            rfl

/-- A byte offset is covered by some chunk of the plan exactly when it
lies in `[rangeStart, rangeStart + rangeLength)`: the union of the plan's
ranges is the requested range, with no gap and nothing outside it. -/
theorem chunkPlan_coverage (rangeStart rangeLength chunkSize : Nat)
    (hc : 0 < chunkSize) (x : Nat) :
    (∃ p ∈ chunkPlan rangeStart rangeLength chunkSize, p.1 ≤ x ∧ x < p.1 + p.2) ↔
      (rangeStart ≤ x ∧ x < rangeStart + rangeLength) := by
  induction rangeLength using Nat.strong_induction_on generalizing rangeStart with
  | _ n ih =>
    rw [chunkPlan_eq]
    split
    · next h =>
      simp
      omega
    · next h =>
      split
      · next h2 =>
        simp
      · next h2 =>
        have hrec := ih (n - chunkSize) (by omega) (rangeStart + chunkSize)
        constructor
        · rintro ⟨p, hp, hx1, hx2⟩
          simp at hp
          rcases hp with hp | hp
          · subst hp; omega
          · have := hrec.mp ⟨p, hp, hx1, hx2⟩
            omega
        · rintro ⟨hx1, hx2⟩
          by_cases hcase : x < rangeStart + chunkSize
          · exact ⟨(rangeStart, chunkSize), by simp, hx1, hcase⟩
          · obtain ⟨p, hp, hx⟩ := hrec.mpr (by omega)
            exact ⟨p, by simp [hp], hx⟩

/-- Membership in the `dropLast` of a cons: the element is the head or
lies in the `dropLast` of the tail. -/
theorem mem_dropLast_cons_elim {α : Type} (a : α) (l : List α) (p : α)
    (hp : p ∈ (a :: l).dropLast) : p = a ∨ p ∈ l.dropLast := by
  cases l with
  | nil => simp at hp
  | cons b t =>
    rw [List.dropLast_cons₂] at hp
    exact List.mem_cons.mp hp

/-- Every chunk except the final one has exactly the nominal size. -/
theorem chunkPlan_full_chunks (rangeStart rangeLength chunkSize : Nat) :
    ∀ p ∈ (chunkPlan rangeStart rangeLength chunkSize).dropLast, p.2 = chunkSize := by
  induction rangeLength using Nat.strong_induction_on generalizing rangeStart with
  | _ n ih =>
    rw [chunkPlan_eq]
    split
    · intro p hp; simp at hp
    · next h =>
      split
      · intro p hp; simp at hp
      · next h2 =>
        have hrec := ih (n - chunkSize) (by omega) (rangeStart + chunkSize)
        intro p hp
        rcases mem_dropLast_cons_elim _ _ _ hp with hp | hp
        · subst hp; rfl
        · exact hrec p hp

/-- Chunks of the plan are pairwise non-overlapping and listed in
increasing order: any earlier chunk ends at or before any later chunk
begins. -/
theorem chunkPlan_pairwise (rangeStart rangeLength chunkSize : Nat)
    (hc : 0 < chunkSize) :
    List.Pairwise (fun p q : Nat × Nat => p.1 + p.2 ≤ q.1)
      (chunkPlan rangeStart rangeLength chunkSize) := by
  induction rangeLength using Nat.strong_induction_on generalizing rangeStart with
  | _ n ih =>
    rw [chunkPlan_eq]
    split
    · exact List.Pairwise.nil
    · next h =>
      split
      · simp
      · next h2 =>
        refine List.pairwise_cons.mpr
          ⟨?_, ih (n - chunkSize) (by omega) (rangeStart + chunkSize)⟩
        intro q hq
        have hb := chunkPlan_len_bounds (rangeStart + chunkSize) (n - chunkSize)
          chunkSize q hq
        have hcov := (chunkPlan_coverage (rangeStart + chunkSize) (n - chunkSize)
          chunkSize hc q.1).mp ⟨q, hq, Nat.le_refl _, by omega⟩
        simp
        omega

/-- Once a first fatal fault is recorded, any single step preserves it
and dispatches nothing new. -/
theorem schedStep_fault_frozen (total concurrency : Nat) (s : SchedState)
    (e : SchedEvent) (f : Fault) (hf : s.firstFault = some f) :
    (schedStep total concurrency s e).firstFault = some f ∧
      (schedStep total concurrency s e).nextChunk = s.nextChunk := by
  cases e with
  | dispatch =>
    simp [schedStep, hf]
  | complete i outcome =>
    simp only [schedStep]
    split
    · simp [hf]
    · exact ⟨hf, rfl⟩

/-- The retry function on an entity-tag mismatch: a single `Download`
call and a `ConsistencyFault`. -/
theorem runRetryFunction_mismatch (oracle : Nat → DownloadFileOptions → DownloadFileResult)
    (origETag : String) (options : DownloadFileOptions) (k : Int)
    (h : (oracle 0 (retryFunctionNewOptions options k)).ETag ≠ origETag) :
    runRetryFunction oracle origETag options k
      = (.error Fault.ConsistencyFault, [retryFunctionNewOptions options k]) := by
  unfold runRetryFunction retryFunction doDownload
  simp [ExceptT.run, StateT.run, bind, ExceptT.bind, StateT.bind, ExceptT.bindCont,
    ExceptT.lift, ExceptT.mk, pure, ExceptT.pure, StateT.pure, Ne.symm h, throw, throwThe,
    MonadExceptOf.throw, monadLift, MonadLift.monadLift, liftM, Functor.map,
    StateT.map, get, getThe, MonadStateOf.get, StateT.get, set, MonadStateOf.set,
    StateT.set]

/-- The terminal `Inconsistent` state absorbs every further event with no
getter invocation. -/
theorem rsRun_inconsistent (maxRetry : Nat)
    (getter : Int → Except Fault DownloadFileResult) (events : List RSEvent) :
    rsRun maxRetry getter .Inconsistent events = (.Inconsistent, 0) := by
  induction events with
  | nil => rfl
  | cons e rest ih => simp [rsRun, rsStep, ih]

/-- Once a first fatal fault is recorded, a whole run of further events
preserves it and dispatches nothing new. -/
theorem schedRun_fault_frozen (total concurrency : Nat) (events : List SchedEvent)
    (s : SchedState) (f : Fault) (hf : s.firstFault = some f) :
    (schedRun total concurrency s events).firstFault = some f ∧
      (schedRun total concurrency s events).nextChunk = s.nextChunk := by
  induction events generalizing s with
  | nil => exact ⟨hf, rfl⟩
  | cons e rest ih =>
    have h1 := schedStep_fault_frozen total concurrency s e f hf
    have h2 := ih (schedStep total concurrency s e) h1.1
    exact ⟨h2.1, h2.2.trans h1.2⟩

/-!
## The claims
-/

/-- Claim C1: for every resumed read of a Reliable Stream wrapping a
`FileClient::Download` body, if the entity tag of the response obtained
for the resume request differs from the entity tag captured when the
stream was first opened, the operation fails with a `ConsistencyFault`
(the terminal `Inconsistent` state) and no further resume attempt is
issued: exactly one getter invocation occurs across the faulting read
and all subsequent events. -/
theorem reliableStream_consistencyFault_no_further_resume
    (maxRetry : Nat) (oracle : Nat → DownloadFileOptions → DownloadFileResult)
    (origETag : String) (options : DownloadFileOptions)
    (off : Int) (a : Nat) (rest : List RSEvent)
    (ha : a < maxRetry)
    (hmismatch : (oracle 0 (retryFunctionNewOptions options off)).ETag ≠ origETag) :
    fileClientGetter oracle origETag options off
        = .error Fault.ConsistencyFault ∧
    rsRun maxRetry (fileClientGetter oracle origETag options) (.Streaming off a)
        (.fault :: rest)
      = (.Inconsistent, 1) := by
  have hget : fileClientGetter oracle origETag options off
      = .error Fault.ConsistencyFault := by
    unfold fileClientGetter
    rw [runRetryFunction_mismatch oracle origETag options off hmismatch]
  exact ⟨hget, by simp [rsRun, rsStep, ha, hget, rsRun_inconsistent]⟩

/-- Witness for claim C1: a stream opened on entity tag "orig", faulting
after 40 delivered bytes against a resource whose tag is now "changed",
reaches `Inconsistent` with exactly one resume call, whatever happens
afterwards. -/
theorem reliableStream_consistencyFault_no_further_resume_witness :
    0 < 3 ∧
    (changedOracle 0
        (retryFunctionNewOptions { Offset := some 0, Length := some 100 } 40)).ETag
      ≠ "orig" ∧
    (fileClientGetter changedOracle "orig" { Offset := some 0, Length := some 100 } 40
        = .error Fault.ConsistencyFault ∧
     rsRun 3 (fileClientGetter changedOracle "orig"
        { Offset := some 0, Length := some 100 })
      (.Streaming 40 0) (.fault :: [.deliver 5, .fault, .deliver 7])
      = (.Inconsistent, 1)) :=
  ⟨by decide, by decide,
   reliableStream_consistencyFault_no_further_resume 3 changedOracle "orig"
     { Offset := some 0, Length := some 100 } 40 0 [.deliver 5, .fault, .deliver 7]
     (by decide) (by decide)⟩

/-- Claim C2: for every resume after a read fault in which `k` bytes had
already been delivered, the resume request's range starts at
`originalStart + k`; with an explicit original length `L` the resume
length is `L - k`, and with no original length the resumed range extends
to the end of the resource (open range header). -/
theorem resume_request_range (options : DownloadFileOptions) (k : Int) :
    (retryFunctionNewOptions options k).Offset = some (options.Offset.getD 0 + k) ∧
    (retryFunctionNewOptions options k).Length = options.Length.map (fun L => L - k) ∧
    downloadRangeHeader (retryFunctionNewOptions options k)
      = some (rangeHeaderSpec (options.Offset.getD 0 + k)
          (options.Length.map (fun L => L - k))) := by
  obtain ⟨o, l⟩ := options
  cases o <;> cases l <;>
    simp [retryFunctionNewOptions, downloadRangeHeader, rangeHeaderSpec, Option.getD]

/-- Claim C3: on a resume attempt with a matching entity tag, the retry
function performs the ranged `Download` twice with identical options; the
first response serves only the entity-tag comparison, and the returned
body is the second call's response — accepted with no comparison of its
own entity tag against the original. -/
theorem retryFunction_double_download
    (oracle : Nat → DownloadFileOptions → DownloadFileResult)
    (origETag : String) (options : DownloadFileOptions) (k : Int)
    (h : (oracle 0 (retryFunctionNewOptions options k)).ETag = origETag) :
    runRetryFunction oracle origETag options k
      = (.ok (oracle 1 (retryFunctionNewOptions options k)),
         [retryFunctionNewOptions options k, retryFunctionNewOptions options k]) := by
  unfold runRetryFunction retryFunction doDownload
  simp [ExceptT.run, StateT.run, bind, ExceptT.bind, StateT.bind, ExceptT.bindCont,
    ExceptT.lift, ExceptT.mk, pure, ExceptT.pure, StateT.pure, h, throw, throwThe,
    MonadExceptOf.throw, monadLift, MonadLift.monadLift, liftM, Functor.map,
    StateT.map, get, getThe, MonadStateOf.get, StateT.get, set, MonadStateOf.set,
    StateT.set]

/-- Witness for claim C3: against an oracle whose first response carries
the original tag "v1" but whose second response carries a different tag
"v2", the resume succeeds and delivers the second response — its
mismatching tag is never checked. -/
theorem retryFunction_double_download_witness :
    (shiftingOracle 0
        (retryFunctionNewOptions { Offset := some 0, Length := some 100 } 10)).ETag
      = "v1" ∧
    (shiftingOracle 1
        (retryFunctionNewOptions { Offset := some 0, Length := some 100 } 10)).ETag
      ≠ "v1" ∧
    runRetryFunction shiftingOracle "v1" { Offset := some 0, Length := some 100 } 10
      = (.ok (shiftingOracle 1
           (retryFunctionNewOptions { Offset := some 0, Length := some 100 } 10)),
         [retryFunctionNewOptions { Offset := some 0, Length := some 100 } 10,
          retryFunctionNewOptions { Offset := some 0, Length := some 100 } 10]) :=
  ⟨by decide, by decide,
   retryFunction_double_download shiftingOracle "v1"
     { Offset := some 0, Length := some 100 } 10 (by decide)⟩

/-- Claim C4: for every `(rangeStart, rangeLength, chunkSize)` with a
positive chunk size, the Chunk Plan is an ordered list of pairwise
non-overlapping, gap-free ranges whose union is exactly
`[rangeStart, rangeStart + rangeLength)`, every chunk of length
`chunkSize` except possibly a shorter (nonempty) final chunk. -/
theorem chunkPlan_partition (rangeStart rangeLength chunkSize : Nat)
    (hc : 0 < chunkSize) :
    List.Chain' (fun p q => p.1 + p.2 = q.1)
      (chunkPlan rangeStart rangeLength chunkSize) ∧
    List.Pairwise (fun p q : Nat × Nat => p.1 + p.2 ≤ q.1)
      (chunkPlan rangeStart rangeLength chunkSize) ∧
    (∀ x, (∃ p ∈ chunkPlan rangeStart rangeLength chunkSize,
        p.1 ≤ x ∧ x < p.1 + p.2) ↔
      (rangeStart ≤ x ∧ x < rangeStart + rangeLength)) ∧
    (∀ p ∈ (chunkPlan rangeStart rangeLength chunkSize).dropLast,
      p.2 = chunkSize) ∧
    (∀ p ∈ chunkPlan rangeStart rangeLength chunkSize,
      0 < p.2 ∧ p.2 ≤ chunkSize) :=
  ⟨chunkPlan_chain rangeStart rangeLength chunkSize,
   chunkPlan_pairwise rangeStart rangeLength chunkSize hc,
   fun x => chunkPlan_coverage rangeStart rangeLength chunkSize hc x,
   chunkPlan_full_chunks rangeStart rangeLength chunkSize,
   chunkPlan_len_bounds rangeStart rangeLength chunkSize⟩

/-- Witness for claim C4: the partition property instantiated for range
`[100, 110)` with chunk size 4. -/
theorem chunkPlan_partition_witness :
    0 < 4 ∧
    (List.Chain' (fun p q => p.1 + p.2 = q.1) (chunkPlan 100 10 4) ∧
     List.Pairwise (fun p q : Nat × Nat => p.1 + p.2 ≤ q.1) (chunkPlan 100 10 4) ∧
     (∀ x, (∃ p ∈ chunkPlan 100 10 4, p.1 ≤ x ∧ x < p.1 + p.2) ↔
        (100 ≤ x ∧ x < 100 + 10)) ∧
     (∀ p ∈ (chunkPlan 100 10 4).dropLast, p.2 = 4) ∧
     (∀ p ∈ chunkPlan 100 10 4, 0 < p.2 ∧ p.2 ≤ 4)) :=
  ⟨by decide, chunkPlan_partition 100 10 4 (by decide)⟩

/-- Claim C5: if a chunk worker fails with a fatal fault during a
scheduler run (the run up to `pre` records first fault `f`), then over
any continuation `post` the run dispatches no new chunk, still lets
in-flight chunks complete, and surfaces `f` to the caller — even when
every other chunk, including the last-index chunk, later completes
successfully. -/
theorem sched_first_fatal_fault_surfaced (total concurrency : Nat)
    (pre post : List SchedEvent) (f : Fault)
    (hf : (schedRun total concurrency schedInit pre).firstFault = some f) :
    (schedRun total concurrency (schedRun total concurrency schedInit pre)
        post).firstFault = some f ∧
    (schedRun total concurrency (schedRun total concurrency schedInit pre)
        post).nextChunk
      = (schedRun total concurrency schedInit pre).nextChunk ∧
    schedResult (schedRun total concurrency
        (schedRun total concurrency schedInit pre) post) = .error f ∧
    (∀ i outcome, i ∈ (schedRun total concurrency schedInit pre).inFlight →
      (schedStep total concurrency (schedRun total concurrency schedInit pre)
          (.complete i outcome)).inFlight
        = (schedRun total concurrency schedInit pre).inFlight.erase i) := by
  have h := schedRun_fault_frozen total concurrency post
    (schedRun total concurrency schedInit pre) f hf
  refine ⟨h.1, h.2, ?_, ?_⟩
  · unfold schedResult
    rw [h.1]
  · intro i outcome hi
    simp [schedStep, hi]

/-- Witness for claim C5: three chunks, concurrency two; chunks 0 and 1
are dispatched, chunk 0 fails with a `ServiceFault`; afterwards chunk 1
(the in-flight chunk) completes successfully and a dispatch opportunity
arises, yet chunk 2 is never dispatched and the run surfaces the
`ServiceFault`. -/
theorem sched_first_fatal_fault_surfaced_witness :
    (schedRun 3 2 schedInit
        [.dispatch, .dispatch, .complete 0 (some Fault.ServiceFault)]).firstFault
      = some Fault.ServiceFault ∧
    (schedRun 3 2 (schedRun 3 2 schedInit
        [.dispatch, .dispatch, .complete 0 (some Fault.ServiceFault)])
        [.complete 1 none, .dispatch]).firstFault = some Fault.ServiceFault ∧
    (schedRun 3 2 (schedRun 3 2 schedInit
        [.dispatch, .dispatch, .complete 0 (some Fault.ServiceFault)])
        [.complete 1 none, .dispatch]).nextChunk
      = (schedRun 3 2 schedInit
        [.dispatch, .dispatch, .complete 0 (some Fault.ServiceFault)]).nextChunk ∧
    schedResult (schedRun 3 2 (schedRun 3 2 schedInit
        [.dispatch, .dispatch, .complete 0 (some Fault.ServiceFault)])
        [.complete 1 none, .dispatch]) = .error Fault.ServiceFault :=
  ⟨by decide,
   (sched_first_fatal_fault_surfaced 3 2
     [.dispatch, .dispatch, .complete 0 (some Fault.ServiceFault)]
     [.complete 1 none, .dispatch] Fault.ServiceFault (by decide)).1,
   (sched_first_fatal_fault_surfaced 3 2
     [.dispatch, .dispatch, .complete 0 (some Fault.ServiceFault)]
     [.complete 1 none, .dispatch] Fault.ServiceFault (by decide)).2.1,
   (sched_first_fatal_fault_surfaced 3 2
     [.dispatch, .dispatch, .complete 0 (some Fault.ServiceFault)]
     [.complete 1 none, .dispatch] Fault.ServiceFault (by decide)).2.2.1⟩

/-- Claim C6: during a chunked `DownloadTo`, whatever the completion
order, the whole-transfer result metadata is overwritten (through
`returnTypeConverter`) from a chunk's response exactly when that chunk's
index is `numChunks - 1`: the run of completions equals the final-chunk's
converted response when index `numChunks - 1` completes, and leaves the
initial result untouched otherwise. -/
theorem finalize_by_chunk_index (numChunks : Int)
    (resp : Int → DownloadFileResult) (order : List Int)
    (ret : DownloadFileToResult) :
    runChunkCompletions numChunks resp order ret
      = if numChunks - 1 ∈ order then returnTypeConverter (resp (numChunks - 1))
        else ret := by
  induction order generalizing ret with
  | nil => simp [runChunkCompletions]
  | cons i rest ih =>
    show runChunkCompletions numChunks resp rest
        (downloadChunkFinalize (resp i) i numChunks ret)
      = if numChunks - 1 ∈ i :: rest then returnTypeConverter (resp (numChunks - 1))
        else ret
    rw [ih]
    by_cases hi : i = numChunks - 1
    · by_cases hr : numChunks - 1 ∈ rest <;>
        simp [downloadChunkFinalize, hi, hr]
    · by_cases hr : numChunks - 1 ∈ rest <;>
        simp [downloadChunkFinalize, List.mem_cons, hi, hr, Ne.symm hi]

/-- Claim C7, counterexample: downloading the 10,485,760-byte resource
with `ChunkSize` 4,194,304, `Concurrency` 3 and `InitialChunkSize`
1,048,576 — and no explicit `Offset`, as the scenario states — issues an
initial request whose range header is NOT `bytes=0-1048575`: the initial
request carries no range header at all, because `DownloadTo` only sets a
first-chunk `Length` (and `Download` only a `Range` header) when an
`Offset` was supplied. -/
theorem downloadTo_initial_range_header_counterexample :
    (downloadToBuffer c7File 10485760 c7Options).2.requests.head?
      ≠ some (some "bytes=0-1048575") := by
  decide

/-- Claim C7 as amended: with the same parameters, the initial request
carries no range header (only 1,048,576 bytes of its body are consumed);
the remaining 9,437,184 bytes are partitioned into ranged chunk requests
of at most 4,194,304 bytes (`bytes=1048576-5242879`,
`bytes=5242880-9437183`, `bytes=9437184-10485759`); and the result's
`ContentLength` is exactly 10,485,760. -/
theorem downloadTo_10MiB_partition :
    downloadToBuffer c7File 10485760 c7Options
      = (.ok { ETag := "etag", LastModified := "", HttpHeaders := [], Metadata := [],
               IsServerEncrypted := false, ContentLength := 10485760 },
         { requests := [none, some "bytes=1048576-5242879",
                        some "bytes=5242880-9437183", some "bytes=9437184-10485759"]
           writes := [(0, 1048576), (1048576, 4194304), (5242880, 4194304),
                      (9437184, 1048576)] }) ∧
    (chunkPlan 1048576 9437184 4194304).map Prod.snd
      = [4194304, 4194304, 1048576] ∧
    ((chunkPlan 1048576 9437184 4194304).map Prod.snd).sum = 9437184 := by
  refine ⟨by rfl, by decide, by decide⟩

/-- Claim C8: constructing a Pipeline from zero policies fails with a
`ConfigFault` on both the copy-from-vector and the move-construction
paths; construction from one or more policies succeeds on both paths. -/
theorem pipeline_construction (ps : List HttpPolicy) (hps : ps ≠ []) :
    mkHttpPipeline [] = .error Fault.ConfigFault ∧
    mkHttpPipelineMove [] = .error Fault.ConfigFault ∧
    mkHttpPipeline ps = .ok { policies := ps } ∧
    mkHttpPipelineMove ps = .ok { policies := ps } := by
  refine ⟨rfl, rfl, ?_, ?_⟩ <;> simp [mkHttpPipeline, mkHttpPipelineMove, hps]

/-- Witness for claim C8: the one-policy pipeline of the unit tests (a
telemetry policy) constructs successfully on both paths, while the empty
vector fails on both. -/
theorem pipeline_construction_witness :
    [HttpPolicy.TelemetryPolicy "test" "test"] ≠ ([] : List HttpPolicy) ∧
    (mkHttpPipeline [] = .error Fault.ConfigFault ∧
     mkHttpPipelineMove [] = .error Fault.ConfigFault ∧
     mkHttpPipeline [HttpPolicy.TelemetryPolicy "test" "test"]
       = .ok { policies := [HttpPolicy.TelemetryPolicy "test" "test"] } ∧
     mkHttpPipelineMove [HttpPolicy.TelemetryPolicy "test" "test"]
       = .ok { policies := [HttpPolicy.TelemetryPolicy "test" "test"] }) :=
  ⟨by decide, pipeline_construction [HttpPolicy.TelemetryPolicy "test" "test"]
    (by decide)⟩

/-- Claim C9: for the buffer overload of `DownloadTo`, whenever the
resolved file range size exceeds the supplied buffer size, the operation
fails with a `ConfigFault` immediately: no byte has been written to the
buffer, no parallel chunk request has been issued (only the single
initial request exists), and nothing is retried. -/
theorem downloadTo_buffer_too_small (f : FileModel) (bufferSize : Nat)
    (options : DownloadFileToOptions) (frs : Int)
    (hr : resolvedFileRangeSize f options = some frs)
    (hlt : (bufferSize : Int) < frs) :
    downloadToBuffer f bufferSize options
      = (.error Fault.ConfigFault,
         { requests := [downloadRangeHeader (firstChunkOptionsOf options)]
           writes := [] }) := by
  unfold downloadToBuffer
  rw [hr]
  simp [hlt]

/-- Witness for claim C9: a 100-byte file downloaded (from offset 0) into
a 10-byte buffer fails with a `ConfigFault`, with an empty write log and
only the initial request issued. -/
theorem downloadTo_buffer_too_small_witness :
    resolvedFileRangeSize { size := 100 } { Offset := some 0, Concurrency := 1 }
        = some 100 ∧
    ((10 : Nat) : Int) < 100 ∧
    downloadToBuffer { size := 100 } 10 { Offset := some 0, Concurrency := 1 }
      = (.error Fault.ConfigFault,
         { requests := [downloadRangeHeader
             (firstChunkOptionsOf { Offset := some 0, Concurrency := 1 })]
           writes := [] }) :=
  ⟨by decide, by decide,
   downloadTo_buffer_too_small { size := 100 } 10
     { Offset := some 0, Concurrency := 1 } 100 (by decide) (by decide)⟩

/-- Claim C10: every range header the file client emits has the form
`bytes=<start>-<end>` with inclusive end `start + length - 1` when a
length is known, and `bytes=<start>-` when the transfer extends to the
end of the resource; in particular `UploadRange` with offset `o` and a
body of length `L` sends `bytes=o-(o+L-1)`. Covers `Download`,
`UploadRange`, `UploadRangeFromUrl` (all three source/target cases),
`ClearRange` and `GetRangeList`. -/
theorem fileClient_range_headers_spec :
    (∀ (o : Int) (L : Option Int),
      downloadRangeHeader { Offset := some o, Length := L }
        = some (rangeHeaderSpec o L)) ∧
    (∀ L : Option Int, downloadRangeHeader { Offset := none, Length := L } = none) ∧
    (∀ o cl : Int, uploadRangeHeader o cl = rangeHeaderSpec o (some cl)) ∧
    (∀ (o l : Int) (sl : Option Int),
      uploadRangeFromUrlTargetRange o l none sl = rangeHeaderSpec o (some l)) ∧
    (∀ o l so sl : Int,
      uploadRangeFromUrlTargetRange o l (some so) (some sl)
        = rangeHeaderSpec so (some sl)) ∧
    (∀ o l so : Int,
      uploadRangeFromUrlTargetRange o l (some so) none = rangeHeaderSpec so none) ∧
    (∀ (o : Int) (L : Option Int), clearRangeHeader o L = rangeHeaderSpec o L) ∧
    (∀ (o : Int) (L : Option Int),
      getRangeListHeader (some o) L = some (rangeHeaderSpec o L)) ∧
    (∀ L : Option Int, getRangeListHeader none L = none) := by
  refine ⟨?_, ?_, ?_, ?_, ?_, ?_, ?_, ?_, ?_⟩ <;>
    intros <;>
    first
      | rfl
      | (rename_i L; cases L <;> rfl)
